import Mathlib

/-!
Verification of the Sqrat utility core (include/sqrat/sqratUtil.h):
a shallow embedding of the context-keyed error registry (class Error),
the diagnostic formatting helper (Error::FormatTypeError) and the
reference-counted shared-ownership container (class SharedPtr), with
theorems settling the specified properties against the embedded code.
-/

namespace Sqrat

/-- The Squirrel VM handle (HSQUIRRELVM) is an opaque pointer supplied by the
embedding host and used by this unit only as a lookup key compared by
identity.  It is embedded as a natural number with decidable equality. -/
abbrev HSQUIRRELVM := Nat

/-- SQInteger, the Squirrel stack index type. -/
abbrev SQInteger := Int

/-- `typedef std::basic_string<SQChar> string` — embedded as a Lean string. -/
abbrev Str := String

/-- Erasure of a key from the registry map.  Embeds `errMap.erase(vm)` on
`std::map<HSQUIRRELVM, string>`: the entry for `vm`, if any, is removed and
every other entry is untouched. -/
def eraseEntry (m : HSQUIRRELVM → Option Str) (vm : HSQUIRRELVM) :
    HSQUIRRELVM → Option Str :=
  fun v => if v = vm then none else m v

/-- The Sqrat error registry (class Error).  Its only state is
`std::map<HSQUIRRELVM, string> errMap`, embedded as a function from VM
handles to the optional pending message (`none` = no entry for that key). -/
structure Error where
  errMap : HSQUIRRELVM → Option Str

/-- Error::Clear — `errMap.erase(vm)`. -/
def Error.Clear (self : Error) (vm : HSQUIRRELVM) : Error :=
  ⟨eraseEntry self.errMap vm⟩

/-- Error::Message — `string err = errMap[vm]; errMap.erase(vm); return err;`.
`std::map::operator[]` default-inserts the empty string when no entry exists,
so `err` is the stored message when present and the empty string otherwise;
the entry (stored or just default-inserted) is then erased.  Returns the
message together with the updated registry. -/
def Error.Message (self : Error) (vm : HSQUIRRELVM) : Str × Error :=
  ((self.errMap vm).getD "", ⟨eraseEntry self.errMap vm⟩)

/-- Error::Occurred — `errMap.find(vm) != errMap.end()`. -/
def Error.Occurred (self : Error) (vm : HSQUIRRELVM) : Bool :=
  (self.errMap vm).isSome

/-- Error::Throw — `if (errMap.find(vm) == errMap.end()) errMap[vm] = err;`:
the message is recorded only when no entry for `vm` is present. -/
def Error.Throw (self : Error) (vm : HSQUIRRELVM) (err : Str) : Error :=
  if (self.errMap vm).isNone then
    ⟨fun v => if v = vm then some err else self.errMap v⟩
  else
    self

/-- Error::FormatTypeError.  The calls `sq_typeof(vm, idx)` /
`sq_tostring` / `sq_getstring` interrogate the external interpreter; they are
embedded as one lookup `typeofAt : SQInteger → Option Str` giving, for the
current state of the VM the helper was called with, the rendered name of the
runtime type of the value at a stack index (`none` when `sq_typeof` fails).
The stack pushes and pops performed along the way touch only the external VM
and have no effect on the returned string. -/
def FormatTypeError (typeofAt : SQInteger → Option Str) (idx : SQInteger)
    (expectedType : Str) : Str :=
  let err := "wrong type (" ++ expectedType ++ " expected"
  match typeofAt idx with
  | some actualType => err ++ ", got " ++ actualType ++ ")"
  | none => err ++ ", got unknown)"

/-- The registry with no pending entry for any VM (state of the singleton
before any Throw). -/
def emptyError : Error := ⟨fun _ => none⟩

/-- Modulus of the C `unsigned int` used for the shared reference count
(`unsigned int* m_RefCount`); arithmetic on it wraps modulo 2^32. -/
def UINT_MOD : Nat := 2 ^ 32

/-- The heap state surrounding a family of SharedPtr handles.  Pointee
objects (type T, created by the caller with `new`) and reference-count cells
(created by `new unsigned int` inside SharedPtr) live at natural-number
addresses in two separate address spaces.  `destroyCount` counts, per pointee
address, how many times `delete m_Ptr` has run, so that destroyed exactly
once is expressible. -/
structure World where
  /-- Contents of the `unsigned int` count cells, by address. -/
  mem : Nat → Nat
  /-- Which count-cell addresses are currently allocated. -/
  countAlloc : Nat → Bool
  /-- Which pointee addresses currently hold a live (not yet deleted) T. -/
  objAlive : Nat → Bool
  /-- How many times `delete` has run on each pointee address. -/
  destroyCount : Nat → Nat
  /-- Source of fresh addresses for `new unsigned int`. -/
  nextCount : Nat

/-- A SharedPtr handle: `T* m_Ptr` and `unsigned int* m_RefCount`, each NULL
(`none`) or an address.  Every path in the source assigns both fields
together (both NULL or both set), so in reachable states the two options
match. -/
structure SharedPtr where
  m_Ptr : Option Nat
  m_RefCount : Option Nat

/-- The default constructor `SharedPtr()` — both members NULL. -/
def SharedPtr.null : SharedPtr := ⟨none, none⟩

/-- Heap effect of `*m_RefCount += 1` on the cell at `rc`: unsigned 32-bit
wraparound increment. -/
def bumpCount (w : World) (rc : Nat) : World :=
  { w with mem := Function.update w.mem rc ((w.mem rc + 1) % UINT_MOD) }

/-- Heap effect of `*m_RefCount -= 1` on the cell at `rc`: unsigned 32-bit
wraparound decrement. -/
def decCount (w : World) (rc : Nat) : World :=
  { w with mem := Function.update w.mem rc ((w.mem rc + (UINT_MOD - 1)) % UINT_MOD) }

/-- Heap effect of `delete m_Ptr; delete m_RefCount` for pointee `p` and
count cell `rc`: the pointee stops being live, its destruction counter rises
by one, and the count cell is deallocated. -/
def destroyAt (w : World) (p rc : Nat) : World :=
  { w with
    objAlive := Function.update w.objAlive p false,
    destroyCount := Function.update w.destroyCount p (w.destroyCount p + 1),
    countAlloc := Function.update w.countAlloc rc false }

/-- SharedPtr::Reset — if `m_Ptr != NULL`: when `*m_RefCount == 1` it runs
`delete m_Ptr; delete m_RefCount` and sets both members to NULL, otherwise it
runs `*m_RefCount -= 1` (unsigned wraparound decrement) and the members keep
their values; if `m_Ptr == NULL` nothing happens.  The arm with `m_Ptr` set
and `m_RefCount` NULL is unreachable in the source (every path assigns the
two members together) and is embedded as doing nothing. -/
def SharedPtr.Reset (self : SharedPtr) (w : World) : SharedPtr × World :=
  match self.m_Ptr, self.m_RefCount with
  | some p, some rc =>
    if w.mem rc = 1 then
      (⟨none, none⟩, destroyAt w p rc)
    else
      (self, decCount w rc)
  | _, _ => (self, w)

/-- The destructor `~SharedPtr()` — calls Reset. -/
def SharedPtr.destructor (self : SharedPtr) (w : World) : World :=
  (self.Reset w).2

/-- The copy constructor `SharedPtr(const SharedPtr<T>&)` — when
`copy.Get() != NULL` the new handle shares `m_Ptr` and `m_RefCount` with
`copy` and runs `*m_RefCount += 1` (unsigned wraparound increment);
otherwise both members are NULL.  As in Reset, the arm with `m_Ptr` set and
`m_RefCount` NULL is unreachable in the source and its `*m_RefCount += 1`
(a NULL dereference there) is embedded as doing nothing. -/
def SharedPtr.copyCtor (copy : SharedPtr) (w : World) : SharedPtr × World :=
  match copy.m_Ptr, copy.m_RefCount with
  | some p, some rc => (⟨some p, some rc⟩, bumpCount w rc)
  | some p, none => (⟨some p, none⟩, w)
  | none, _ => (⟨none, none⟩, w)

/-- SharedPtr::Init — `Reset(); m_Ptr = ptr; m_RefCount = new unsigned int;
*m_RefCount = 1;`.  The fresh count cell is allocated at `nextCount` and set
to 1. -/
def SharedPtr.Init (self : SharedPtr) (ptr : Nat) (w : World) : SharedPtr × World :=
  let w1 := (self.Reset w).2
  (⟨some ptr, some w1.nextCount⟩,
   { w1 with
     mem := Function.update w1.mem w1.nextCount 1,
     countAlloc := Function.update w1.countAlloc w1.nextCount true,
     nextCount := w1.nextCount + 1 })

/-- The constructor `SharedPtr(T* ptr)` — its body is `Init(ptr)`.  The
members are embedded as starting NULL, on which the Reset at the head of Init
does nothing.  (In the C++ source the members are formally uninitialized at
that point; NULL is the benign value every non-crashing run behaves as.) -/
def SharedPtr.fromPtr (ptr : Nat) (w : World) : SharedPtr × World :=
  SharedPtr.null.Init ptr w

/-- The assignment `operator=(const SharedPtr<T>& copy)`.  `aliased` embeds
the source test `this == &copy` (object identity of the two handles, not
value equality): a self-assignment is exactly a call with `aliased = true`
and `copy = self`.  When not aliased: `Reset()`, then the copy-constructor
body. -/
def SharedPtr.assign (self : SharedPtr) (copy : SharedPtr) (aliased : Bool)
    (w : World) : SharedPtr × World :=
  if aliased then
    (self, w)
  else
    let w1 := (self.Reset w).2
    match copy.m_Ptr, copy.m_RefCount with
    | some p, some rc => (⟨some p, some rc⟩, bumpCount w1 rc)
    | some p, none => (⟨some p, none⟩, w1)
    | none, _ => (⟨none, none⟩, w1)

/-- `operator*` — `assert(m_Ptr != NULL); return *m_Ptr;`.  Returns the
address of the pointee the returned reference denotes; `none` embeds the
assertion firing (fail-fast abort) on an empty handle. -/
def SharedPtr.derefStar (self : SharedPtr) : Option Nat :=
  match self.m_Ptr with
  | some p => some p
  | none => none

/-- `operator->` — `assert(m_Ptr != NULL); return m_Ptr;`, with `none`
embedding the assertion firing on an empty handle. -/
def SharedPtr.derefArrow (self : SharedPtr) : Option Nat :=
  match self.m_Ptr with
  | some p => some p
  | none => none

/-- SharedPtr::Get — returns `m_Ptr` as is (NULL for an empty handle). -/
def SharedPtr.Get (self : SharedPtr) : Option Nat :=
  self.m_Ptr

/-- Making `n` successive copies of the handle `h` with the copy
constructor: returns the list of new handles and the final heap state. -/
def mkCopies : Nat → SharedPtr → World → List SharedPtr × World
  | 0, _, w => ([], w)
  | n + 1, h, w =>
    let cw := h.copyCtor w
    let rest := mkCopies n h cw.2
    (cw.1 :: rest.1, rest.2)

/-- Resetting `k` handles that are all the identical record `h` (as are the
original handle and every copy made of it), one after the other. -/
def resetN : Nat → SharedPtr → World → World
  | 0, _, w => w
  | k + 1, h, w => resetN k h (h.Reset w).2

/-- The handle created by `SharedPtr(T*)` from pointee address `p` in heap
`w0` (the shared scenario of the ownership claims). -/
def scenarioHandle (p : Nat) (w0 : World) : SharedPtr :=
  (SharedPtr.fromPtr p w0).1

/-- The heap state after creating a handle from pointee address `p` in heap
`w0` and making `n` copies of it. -/
def scenarioWorld (n p : Nat) (w0 : World) : World :=
  (mkCopies n (SharedPtr.fromPtr p w0).1 (SharedPtr.fromPtr p w0).2).2

/-- A concrete initial heap: every count cell reads 0 and is unallocated,
every pointee address holds a live object never yet deleted, fresh count
cells start at address 0. -/
def w0c : World :=
  ⟨fun _ => 0, fun _ => false, fun _ => true, fun _ => 0, 0⟩

/-- C2: first-error-wins.  When no entry exists for context `c`,
`Throw c a` records `a`; a further `Throw c b` while the entry is present
returns the registry unchanged (silently ignored), a later `Message c`
returns `a` (not `b`), and right after that Message call `Occurred c` is
false. -/
theorem error_throw_first_error_wins (e : Error) (c : HSQUIRRELVM) (a b : Str)
    (h : e.errMap c = none) :
    (e.Throw c a).errMap c = some a ∧
    (e.Throw c a).Throw c b = e.Throw c a ∧
    (((e.Throw c a).Throw c b).Message c).1 = a ∧
    ((((e.Throw c a).Throw c b).Message c).2).Occurred c = false := by
  have h1 : (e.Throw c a).errMap c = some a := by
    simp [Error.Throw, h]
  have hnoop : ∀ (e2 : Error) (m : Str), e2.errMap c = some m →
      e2.Throw c b = e2 := by
    intro e2 m hm
    simp [Error.Throw, hm]
  have h2 : (e.Throw c a).Throw c b = e.Throw c a := hnoop _ a h1
  refine ⟨h1, h2, ?_, ?_⟩
  · rw [h2]
    simp [Error.Message, h1]
  · rw [h2]
    simp [Error.Message, Error.Occurred, eraseEntry]

/-- C2 witness: the first-error-wins theorem at the empty registry, context
0 and the messages of the spec example. -/
theorem error_throw_first_error_wins_witness :
    emptyError.errMap 0 = none ∧
    ((emptyError.Throw 0 "a").errMap 0 = some "a" ∧
     (emptyError.Throw 0 "a").Throw 0 "b" = emptyError.Throw 0 "a" ∧
     (((emptyError.Throw 0 "a").Throw 0 "b").Message 0).1 = "a" ∧
     ((((emptyError.Throw 0 "a").Throw 0 "b").Message 0).2).Occurred 0 = false) :=
  ⟨rfl, error_throw_first_error_wins emptyError 0 "a" "b" rfl⟩

/-- C3: Message is a draining read.  For every registry state and context
`c`, `Message c` removes the entry for `c` (so `Occurred c` is false right
after), returns the stored message when one was pending, and returns the
empty text when none was. -/
theorem error_message_drains (e : Error) (c : HSQUIRRELVM) :
    ((e.Message c).2).errMap c = none ∧
    ((e.Message c).2).Occurred c = false ∧
    (∀ m, e.errMap c = some m → (e.Message c).1 = m) ∧
    (e.errMap c = none → (e.Message c).1 = "") := by
  refine ⟨?_, ?_, ?_, ?_⟩
  · simp [Error.Message, eraseEntry]
  · simp [Error.Message, Error.Occurred, eraseEntry]
  · intro m hm
    simp [Error.Message, hm]
  · intro hm
    simp [Error.Message, hm]

/-- C3 witness: draining at a registry holding "a" for context 0 returns
"a" and leaves `Occurred` false, and at the empty registry returns the empty
text. -/
theorem error_message_drains_witness :
    (((emptyError.Throw 0 "a").Message 0).1 = "a" ∧
     ((((emptyError.Throw 0 "a").Message 0).2)).Occurred 0 = false) ∧
    (emptyError.errMap 1 = none ∧ (emptyError.Message 1).1 = "" ∧
     ((emptyError.Message 1).2).Occurred 1 = false) :=
  ⟨⟨(error_message_drains (emptyError.Throw 0 "a") 0).2.2.1 "a" rfl,
    (error_message_drains (emptyError.Throw 0 "a") 0).2.1⟩,
   ⟨rfl, (error_message_drains emptyError 1).2.2.2 rfl,
    (error_message_drains emptyError 1).2.1⟩⟩

/-- C8: Clear discards.  After `Throw c a` then `Clear c`, `Occurred c` is
false and a following `Message c` returns the empty text (the message is
discarded, not returned); and on a registry with no entry for `c`, `Clear c`
leaves the whole map unchanged (a no-op). -/
theorem error_clear_discards (e : Error) (c : HSQUIRRELVM) (a : Str) :
    (((e.Throw c a).Clear c).Occurred c = false) ∧
    ((((e.Throw c a).Clear c).Message c).1 = "") ∧
    (e.errMap c = none → ∀ v, (e.Clear c).errMap v = e.errMap v) := by
  refine ⟨?_, ?_, ?_⟩
  · simp [Error.Clear, Error.Occurred, eraseEntry]
  · simp [Error.Clear, Error.Message, eraseEntry]
  · intro hc v
    by_cases hv : v = c
    · subst hv
      simp [Error.Clear, eraseEntry, hc]
    · simp [Error.Clear, eraseEntry, hv]

/-- C8 witness: the Clear theorem at the empty registry, context 0 and
message "a", the no-op conjunct discharged at the empty registry. -/
theorem error_clear_discards_witness :
    (((emptyError.Throw 0 "a").Clear 0).Occurred 0 = false) ∧
    ((((emptyError.Throw 0 "a").Clear 0).Message 0).1 = "") ∧
    (emptyError.errMap 0 = none ∧
     ∀ v, (emptyError.Clear 0).errMap v = emptyError.errMap v) :=
  ⟨(error_clear_discards emptyError 0 "a").1,
   (error_clear_discards emptyError 0 "a").2.1,
   rfl, (error_clear_discards emptyError 0 "a").2.2 rfl⟩

/-- C9: frame property of Throw.  For distinct contexts `c1 ≠ c2`,
`Throw c1 x` changes neither the entry pending for `c2` nor `Occurred c2`. -/
theorem error_throw_frame (e : Error) (c1 c2 : HSQUIRRELVM) (x : Str)
    (h : c1 ≠ c2) :
    (e.Throw c1 x).errMap c2 = e.errMap c2 ∧
    (e.Throw c1 x).Occurred c2 = e.Occurred c2 := by
  have hmap : (e.Throw c1 x).errMap c2 = e.errMap c2 := by
    unfold Error.Throw
    split
    · simp [Ne.symm h]
    · rfl
  exact ⟨hmap, by simp [Error.Occurred, hmap]⟩

/-- C9 witness: the frame theorem with contexts 0 and 1 on a registry
already holding an entry for context 1. -/
theorem error_throw_frame_witness :
    (0 : HSQUIRRELVM) ≠ 1 ∧
    (((emptyError.Throw 1 "y").Throw 0 "x").errMap 1 =
      (emptyError.Throw 1 "y").errMap 1 ∧
     ((emptyError.Throw 1 "y").Throw 0 "x").Occurred 1 =
      (emptyError.Throw 1 "y").Occurred 1) :=
  ⟨by decide, error_throw_frame (emptyError.Throw 1 "y") 0 1 "x" (by decide)⟩

/-- C6: FormatTypeError text.  When the runtime type of the value at the
given stack index resolves to `actual`, the result is exactly
`wrong type (<expected> expected, got <actual>)`; when the lookup fails, it
is exactly `wrong type (<expected> expected, got unknown)`. -/
theorem formatTypeError_text (typeofAt : SQInteger → Option Str)
    (idx : SQInteger) (expectedType : Str) :
    (∀ actual, typeofAt idx = some actual →
      FormatTypeError typeofAt idx expectedType =
        "wrong type (" ++ expectedType ++ " expected, got " ++ actual ++ ")") ∧
    (typeofAt idx = none →
      FormatTypeError typeofAt idx expectedType =
        "wrong type (" ++ expectedType ++ " expected, got unknown)") := by
  constructor
  · intro actual ha
    simp only [FormatTypeError, ha]
    rw [String.append_assoc ("wrong type (" ++ expectedType)]
    rfl
  · intro ha
    simp only [FormatTypeError, ha]
    rw [String.append_assoc]
    rfl

/-- C6 witness: the spec example — expected "string", actual type resolving
to "integer" gives the exact success text, an unresolvable type gives the
exact unknown text. -/
theorem formatTypeError_text_witness :
    FormatTypeError (fun _ => some "integer") 2 "string" =
      "wrong type (string expected, got integer)" ∧
    FormatTypeError (fun _ => none) 2 "string" =
      "wrong type (string expected, got unknown)" := by
  constructor
  · have h := (formatTypeError_text (fun _ => some "integer") 2 "string").1
      "integer" rfl
    simpa using h
  · have h := (formatTypeError_text (fun _ => none) 2 "string").2 rfl
    simpa using h

/-- C4: constructing from an owned raw pointer.  `SharedPtr(T* ptr)` yields
a handle whose pointee is exactly `ptr` and whose count cell is freshly
allocated (at the allocator head, which advances) holding exactly 1, and the
construction neither deletes nor revives any pointee (ownership is taken, the
object itself is untouched). -/
theorem sharedPtr_fromPtr_fresh_count (p : Nat) (w : World) :
    (SharedPtr.fromPtr p w).1.m_Ptr = some p ∧
    (SharedPtr.fromPtr p w).1.m_RefCount = some w.nextCount ∧
    (SharedPtr.fromPtr p w).2.mem w.nextCount = 1 ∧
    (SharedPtr.fromPtr p w).2.countAlloc w.nextCount = true ∧
    (SharedPtr.fromPtr p w).2.nextCount = w.nextCount + 1 ∧
    (SharedPtr.fromPtr p w).2.objAlive = w.objAlive ∧
    (SharedPtr.fromPtr p w).2.destroyCount = w.destroyCount := by
  refine ⟨rfl, rfl, ?_, ?_, rfl, rfl, rfl⟩
  · simp [SharedPtr.fromPtr, SharedPtr.Init, SharedPtr.null, SharedPtr.Reset]
  · simp [SharedPtr.fromPtr, SharedPtr.Init, SharedPtr.null, SharedPtr.Reset]

/-- C5: dereference precondition.  On a non-empty handle both `operator*`
and `operator->` pass the assertion and return exactly the owned pointee; on
an empty handle both hit the `assert(m_Ptr != NULL)` branch (embedded as
`none`), a fail-fast contract violation rather than a recoverable error. -/
theorem sharedPtr_deref_precondition (h : SharedPtr) :
    (∀ p, h.m_Ptr = some p → h.derefStar = some p ∧ h.derefArrow = some p) ∧
    (h.m_Ptr = none → h.derefStar = none ∧ h.derefArrow = none) := by
  constructor
  · intro p hp
    exact ⟨by simp [SharedPtr.derefStar, hp], by simp [SharedPtr.derefArrow, hp]⟩
  · intro hp
    exact ⟨by simp [SharedPtr.derefStar, hp], by simp [SharedPtr.derefArrow, hp]⟩

/-- C5 witness: the dereference theorem at a concrete non-empty handle with
pointee address 5 and at the concrete empty handle. -/
theorem sharedPtr_deref_precondition_witness :
    ((SharedPtr.mk (some 5) (some 0)).derefStar = some 5 ∧
     (SharedPtr.mk (some 5) (some 0)).derefArrow = some 5) ∧
    (SharedPtr.null.derefStar = none ∧ SharedPtr.null.derefArrow = none) :=
  ⟨(sharedPtr_deref_precondition (SharedPtr.mk (some 5) (some 0))).1 5 rfl,
   (sharedPtr_deref_precondition SharedPtr.null).2 rfl⟩

/-- C7: self-assignment is a safe no-op.  `operator=` first tests
`this == &copy` (embedded as `aliased`); a self-assignment takes that branch
and returns with the handle and the whole heap unchanged — same pointee,
same count cell and count value, no destruction at all (in particular no
transient release and reacquisition, whose trace would raise
`destroyCount`). -/
theorem sharedPtr_self_assign_noop (h : SharedPtr) (w : World) :
    h.assign h true w = (h, w) ∧
    (h.assign h true w).1.m_Ptr = h.m_Ptr ∧
    (h.assign h true w).2.destroyCount = w.destroyCount := by
  refine ⟨rfl, rfl, rfl⟩

/-- C10: Reset of an empty handle is a total, safe no-op, and so is the
destructor of an empty handle (its body is Reset): nothing is destroyed, no
count cell is touched, the handle stays empty. -/
theorem sharedPtr_reset_empty_noop (h : SharedPtr) (w : World)
    (hp : h.m_Ptr = none) :
    h.Reset w = (h, w) ∧ h.destructor w = w := by
  have hr : h.Reset w = (h, w) := by
    unfold SharedPtr.Reset
    rw [hp]
  exact ⟨hr, by simp [SharedPtr.destructor, hr]⟩

/-- C10 witness: the empty-Reset theorem at the concrete empty handle and
the concrete initial heap. -/
theorem sharedPtr_reset_empty_noop_witness :
    SharedPtr.null.m_Ptr = none ∧
    (SharedPtr.null.Reset w0c = (SharedPtr.null, w0c) ∧
     SharedPtr.null.destructor w0c = w0c) :=
  ⟨rfl, sharedPtr_reset_empty_noop SharedPtr.null w0c rfl⟩

/-- Copies made by the copy constructor of a non-empty handle are the
identical record (same pointee, same count cell), so the list of `n` copies
is `n` replicas of the original handle. -/
lemma mkCopies_handles (p rc : Nat) :
    ∀ (n : Nat) (w : World),
      (mkCopies n ⟨some p, some rc⟩ w).1 =
        List.replicate n (⟨some p, some rc⟩ : SharedPtr) := by
  intro n
  induction n with
  | zero => intro w; rfl
  | succ n ih =>
    intro w
    simp only [mkCopies, SharedPtr.copyCtor, List.replicate]
    exact congrArg _ (ih _)

/-- Heap effect of making `n` copies of a non-empty handle: the shared count
cell gains `n` (modulo 2^32) and nothing else observable here changes. -/
lemma mkCopies_world (p rc : Nat) :
    ∀ (n : Nat) (w : World), w.mem rc < UINT_MOD →
      (mkCopies n ⟨some p, some rc⟩ w).2.mem rc = (w.mem rc + n) % UINT_MOD ∧
      (mkCopies n ⟨some p, some rc⟩ w).2.objAlive = w.objAlive ∧
      (mkCopies n ⟨some p, some rc⟩ w).2.destroyCount = w.destroyCount := by
  intro n
  induction n with
  | zero =>
    intro w hw
    exact ⟨(Nat.mod_eq_of_lt hw).symm, rfl, rfl⟩
  | succ n ih =>
    intro w hw
    have hpos : 0 < UINT_MOD := by norm_num [UINT_MOD]
    have hb : (bumpCount w rc).mem rc = (w.mem rc + 1) % UINT_MOD := by
      simp [bumpCount]
    have hb2 : (bumpCount w rc).objAlive = w.objAlive := rfl
    have hb3 : (bumpCount w rc).destroyCount = w.destroyCount := rfl
    simp only [mkCopies, SharedPtr.copyCtor]
    obtain ⟨h1, h2, h3⟩ := ih (bumpCount w rc) (by rw [hb]; exact Nat.mod_lt _ hpos)
    refine ⟨?_, by rw [h2, hb2], by rw [h3, hb3]⟩
    rw [h1, hb, Nat.mod_add_mod]
    congr 1
    omega

/-- The `k+1`-st reset is the reset of the last handle after the first `k`:
peeling `resetN` from the back instead of the front. -/
lemma resetN_succ_last (h : SharedPtr) :
    ∀ (k : Nat) (w : World),
      resetN (k + 1) h w = (h.Reset (resetN k h w)).2 := by
  intro k
  induction k with
  | zero => intro w; rfl
  | succ k ih =>
    intro w
    show resetN (k + 1) h (h.Reset w).2 = _
    rw [ih ((h.Reset w).2)]
    rfl

/-- Resetting `k` of the handles sharing a count cell holding `m`, with
`k < m` (a proper subset of the owners when `m` counts the owners): each
reset takes the plain decrement branch, so the pointees and destruction
counters of the heap are untouched and the cell ends at `m - k`. -/
lemma resetN_progress (p rc : Nat) :
    ∀ (k : Nat) (w : World) (m : Nat), w.mem rc = m → m < UINT_MOD → k < m →
      (resetN k ⟨some p, some rc⟩ w).objAlive = w.objAlive ∧
      (resetN k ⟨some p, some rc⟩ w).destroyCount = w.destroyCount ∧
      (resetN k ⟨some p, some rc⟩ w).mem rc = m - k := by
  intro k
  induction k with
  | zero =>
    intro w m hmem hM hk
    exact ⟨rfl, rfl, by simpa [resetN] using hmem⟩
  | succ k ih =>
    intro w m hmem hM hk
    have hMpos : 2 ≤ UINT_MOD := by norm_num [UINT_MOD]
    have hne : ¬ w.mem rc = 1 := by omega
    have hred : SharedPtr.Reset ⟨some p, some rc⟩ w =
        (⟨some p, some rc⟩, decCount w rc) := by
      simp [SharedPtr.Reset, hne]
    have hdec : (decCount w rc).mem rc = m - 1 := by
      simp only [decCount, Function.update_same]
      rw [hmem]
      have hsum : m + (UINT_MOD - 1) = UINT_MOD + (m - 1) := by omega
      rw [hsum, Nat.add_mod_left]
      exact Nat.mod_eq_of_lt (by omega)
    have hstep : resetN (k + 1) (⟨some p, some rc⟩ : SharedPtr) w =
        resetN k ⟨some p, some rc⟩ (decCount w rc) := by
      show resetN k _ (SharedPtr.Reset ⟨some p, some rc⟩ w).2 = _
      rw [hred]
    obtain ⟨h1, h2, h3⟩ :=
      ih (decCount w rc) (m - 1) hdec (by omega) (by omega)
    rw [hstep]
    refine ⟨h1, h2, ?_⟩
    rw [h3]
    omega

/-- Reset of a handle whose shared count reads 1 (the sole remaining owner):
the destroy branch runs, deleting the pointee and the count cell and
emptying the handle. -/
lemma reset_last_owner (p rc : Nat) (w : World) (hm : w.mem rc = 1) :
    SharedPtr.Reset ⟨some p, some rc⟩ w = (⟨none, none⟩, destroyAt w p rc) := by
  simp [SharedPtr.Reset, hm]

/-- The handle built by `SharedPtr(T*)` carries the pointee address and the
count cell allocated at the head of the allocator. -/
lemma scenarioHandle_eq (p : Nat) (w0 : World) :
    scenarioHandle p w0 = ⟨some p, some w0.nextCount⟩ := rfl

/-- Heap facts after construction and `n` copies: the shared count reads
`(1 + n) mod 2^32` and pointee liveness and destruction counters are those
of the initial heap. -/
lemma scenarioWorld_facts (n p : Nat) (w0 : World) :
    (scenarioWorld n p w0).mem w0.nextCount = (1 + n) % UINT_MOD ∧
    (scenarioWorld n p w0).objAlive = w0.objAlive ∧
    (scenarioWorld n p w0).destroyCount = w0.destroyCount := by
  have hM : 1 < UINT_MOD := by norm_num [UINT_MOD]
  have hmem1 : (SharedPtr.fromPtr p w0).2.mem w0.nextCount = 1 := by
    simp [SharedPtr.fromPtr, SharedPtr.Init, SharedPtr.null, SharedPtr.Reset]
  have halive1 : (SharedPtr.fromPtr p w0).2.objAlive = w0.objAlive := rfl
  have hdc1 : (SharedPtr.fromPtr p w0).2.destroyCount = w0.destroyCount := rfl
  obtain ⟨h1, h2, h3⟩ :=
    mkCopies_world p w0.nextCount n (SharedPtr.fromPtr p w0).2
      (by rw [hmem1]; omega)
  have hh : (SharedPtr.fromPtr p w0).1 =
      (⟨some p, some w0.nextCount⟩ : SharedPtr) := rfl
  refine ⟨?_, ?_, ?_⟩
  · rw [scenarioWorld, hh, h1, hmem1]
  · rw [scenarioWorld, hh, h2, halive1]
  · rw [scenarioWorld, hh, h3, hdc1]

/-- Resetting a proper subset (`k ≤ n`) of the `n + 1` handles after
construction and `n` copies, with no count wrap past one cycle
(`n + 1 ≤ 2^32`): nothing is destroyed and the count reads
`(n + 1 - k) mod 2^32`. -/
lemma scenario_progress (n k p : Nat) (w0 : World)
    (hM : n + 1 ≤ UINT_MOD) (hk : k ≤ n) :
    (resetN k (scenarioHandle p w0) (scenarioWorld n p w0)).objAlive p
      = w0.objAlive p ∧
    (resetN k (scenarioHandle p w0) (scenarioWorld n p w0)).destroyCount p
      = w0.destroyCount p ∧
    (resetN k (scenarioHandle p w0) (scenarioWorld n p w0)).mem w0.nextCount
      = (n + 1 - k) % UINT_MOD := by
  have hM2 : 2 ≤ UINT_MOD := by norm_num [UINT_MOD]
  obtain ⟨hmem, halive, hdc⟩ := scenarioWorld_facts n p w0
  rw [scenarioHandle_eq]
  rcases Nat.lt_or_ge (n + 1) UINT_MOD with hlt | hge
  · -- no wrap at all: the count is exactly n + 1
    have hcnt : (scenarioWorld n p w0).mem w0.nextCount = n + 1 := by
      rw [hmem, Nat.add_comm 1 n]
      exact Nat.mod_eq_of_lt hlt
    obtain ⟨h1, h2, h3⟩ :=
      resetN_progress p w0.nextCount k (scenarioWorld n p w0) (n + 1)
        hcnt hlt (by omega)
    refine ⟨by rw [h1, halive], by rw [h2, hdc], ?_⟩
    rw [h3]
    exact (Nat.mod_eq_of_lt (by omega)).symm
  · -- n + 1 = 2^32: the count has wrapped to 0; the first reset of the
    -- subset wraps it back to 2^32 - 1 and the rest decrement plainly
    have heq : n + 1 = UINT_MOD := by omega
    have hcnt : (scenarioWorld n p w0).mem w0.nextCount = 0 := by
      rw [hmem]
      have h1n : 1 + n = UINT_MOD := by omega
      rw [h1n, Nat.mod_self]
    cases k with
    | zero =>
      refine ⟨?_, ?_, ?_⟩
      · show (scenarioWorld n p w0).objAlive p = w0.objAlive p
        rw [halive]
      · show (scenarioWorld n p w0).destroyCount p = w0.destroyCount p
        rw [hdc]
      · show (scenarioWorld n p w0).mem w0.nextCount = (n + 1 - 0) % UINT_MOD
        rw [hcnt]
        have hz : n + 1 - 0 = UINT_MOD := by omega
        rw [hz, Nat.mod_self]
    | succ j =>
      have hne : ¬ (scenarioWorld n p w0).mem w0.nextCount = 1 := by omega
      have hred : SharedPtr.Reset ⟨some p, some w0.nextCount⟩
            (scenarioWorld n p w0) =
          (⟨some p, some w0.nextCount⟩,
           decCount (scenarioWorld n p w0) w0.nextCount) := by
        simp [SharedPtr.Reset, hne]
      have hwrap : (decCount (scenarioWorld n p w0) w0.nextCount).mem
          w0.nextCount = UINT_MOD - 1 := by
        simp only [decCount, Function.update_same]
        rw [hcnt]
        exact Nat.mod_eq_of_lt (by omega)
      have hstep : resetN (j + 1) (⟨some p, some w0.nextCount⟩ : SharedPtr)
            (scenarioWorld n p w0) =
          resetN j ⟨some p, some w0.nextCount⟩
            (decCount (scenarioWorld n p w0) w0.nextCount) := by
        show resetN j _
            (SharedPtr.Reset ⟨some p, some w0.nextCount⟩
              (scenarioWorld n p w0)).2 = _
        rw [hred]
      obtain ⟨h1, h2, h3⟩ :=
        resetN_progress p w0.nextCount j
          (decCount (scenarioWorld n p w0) w0.nextCount)
          (UINT_MOD - 1) hwrap (by omega) (by omega)
      rw [hstep]
      refine ⟨?_, ?_, ?_⟩
      · rw [h1]
        show (scenarioWorld n p w0).objAlive p = w0.objAlive p
        rw [halive]
      · rw [h2]
        show (scenarioWorld n p w0).destroyCount p = w0.destroyCount p
        rw [hdc]
      · rw [h3]
        have hv : UINT_MOD - 1 - j = n + 1 - (j + 1) := by omega
        rw [hv]
        exact (Nat.mod_eq_of_lt (by omega)).symm

/-- C1 (amended): for a pointee at address `p` owned via `SharedPtr(T*)`
and `n` copies of that handle made with the copy constructor — `n` bounded
so that the 32-bit unsigned shared count does not wrap past one full cycle
(`n + 1 ≤ 2^32`) — the copies are all the identical handle record; resetting
any `k ≤ n` of the `n + 1` handles destroys nothing (the pointee stays live,
its destruction counter stays 0) and only steps the shared count down to
`n + 1 - k` (mod 2^32); resetting all `n + 1` (the last one finding the
count at 1) leaves the pointee destroyed exactly once and no longer live.
Reassignment and the destructor release through this same Reset path. -/
theorem sharedPtr_destroyed_exactly_on_last_release
    (n k p : Nat) (w0 : World) (hM : n + 1 ≤ UINT_MOD)
    (halive : w0.objAlive p = true) (hdc : w0.destroyCount p = 0)
    (hk : k ≤ n) :
    (mkCopies n (SharedPtr.fromPtr p w0).1 (SharedPtr.fromPtr p w0).2).1 =
      List.replicate n (SharedPtr.fromPtr p w0).1 ∧
    ((resetN k (scenarioHandle p w0) (scenarioWorld n p w0)).objAlive p = true ∧
     (resetN k (scenarioHandle p w0) (scenarioWorld n p w0)).destroyCount p = 0 ∧
     (resetN k (scenarioHandle p w0) (scenarioWorld n p w0)).mem w0.nextCount
       = (n + 1 - k) % UINT_MOD) ∧
    ((resetN (n + 1) (scenarioHandle p w0) (scenarioWorld n p w0)).destroyCount p
       = 1 ∧
     (resetN (n + 1) (scenarioHandle p w0) (scenarioWorld n p w0)).objAlive p
       = false) := by
  have hM1 : 1 < UINT_MOD := by norm_num [UINT_MOD]
  obtain ⟨ha, hd, hm⟩ := scenario_progress n k p w0 hM hk
  obtain ⟨han, hdn, hmn⟩ := scenario_progress n n p w0 hM (le_refl n)
  have hmem1 : (resetN n (scenarioHandle p w0) (scenarioWorld n p w0)).mem
      w0.nextCount = 1 := by
    rw [hmn]
    have h11 : n + 1 - n = 1 := by omega
    rw [h11]
    exact Nat.mod_eq_of_lt hM1
  have hlast : resetN (n + 1) (scenarioHandle p w0) (scenarioWorld n p w0) =
      ((scenarioHandle p w0).Reset
        (resetN n (scenarioHandle p w0) (scenarioWorld n p w0))).2 :=
    resetN_succ_last (scenarioHandle p w0) n (scenarioWorld n p w0)
  have hr : (scenarioHandle p w0).Reset
      (resetN n (scenarioHandle p w0) (scenarioWorld n p w0)) =
      (⟨none, none⟩,
       destroyAt (resetN n (scenarioHandle p w0) (scenarioWorld n p w0))
         p w0.nextCount) := by
    have hmem1r : (resetN n (⟨some p, some w0.nextCount⟩ : SharedPtr)
        (scenarioWorld n p w0)).mem w0.nextCount = 1 := by
      rw [← scenarioHandle_eq]
      exact hmem1
    rw [scenarioHandle_eq]
    exact reset_last_owner p w0.nextCount _ hmem1r
  refine ⟨?_, ⟨by rw [ha, halive], by rw [hd, hdc], hm⟩, ?_, ?_⟩
  · have hh : (SharedPtr.fromPtr p w0).1 =
        (⟨some p, some w0.nextCount⟩ : SharedPtr) := rfl
    rw [hh]
    exact mkCopies_handles p w0.nextCount n (SharedPtr.fromPtr p w0).2
  · rw [hlast, hr]
    simp only [destroyAt, Function.update_same]
    rw [hdn, hdc]
  · rw [hlast, hr]
    simp only [destroyAt, Function.update_same]

/-- C1 witness: the spec scenario — one handle from pointee 0 in the
concrete heap, 3 copies, reset 3 of the 4 (pointee live, never destroyed,
count at 1), reset the 4th (destroyed exactly once). -/
theorem sharedPtr_destroyed_exactly_on_last_release_witness :
    (3 + 1 ≤ UINT_MOD ∧ w0c.objAlive 0 = true ∧ w0c.destroyCount 0 = 0 ∧
     3 ≤ 3) ∧
    ((mkCopies 3 (SharedPtr.fromPtr 0 w0c).1 (SharedPtr.fromPtr 0 w0c).2).1 =
       List.replicate 3 (SharedPtr.fromPtr 0 w0c).1 ∧
     ((resetN 3 (scenarioHandle 0 w0c) (scenarioWorld 3 0 w0c)).objAlive 0
        = true ∧
      (resetN 3 (scenarioHandle 0 w0c) (scenarioWorld 3 0 w0c)).destroyCount 0
        = 0 ∧
      (resetN 3 (scenarioHandle 0 w0c) (scenarioWorld 3 0 w0c)).mem
        w0c.nextCount = (3 + 1 - 3) % UINT_MOD) ∧
     ((resetN (3 + 1) (scenarioHandle 0 w0c) (scenarioWorld 3 0 w0c)).destroyCount
        0 = 1 ∧
      (resetN (3 + 1) (scenarioHandle 0 w0c) (scenarioWorld 3 0 w0c)).objAlive 0
        = false)) :=
  ⟨⟨by norm_num [UINT_MOD], rfl, rfl, le_refl 3⟩,
   sharedPtr_destroyed_exactly_on_last_release 3 3 0 w0c
     (by norm_num [UINT_MOD]) rfl rfl (le_refl 3)⟩

/-- C1 counterexample to the unbounded claim as stated: with `n = 2^32`
copies (so `2^32 + 1` handles), the 32-bit unsigned shared count wraps
around to exactly 1, and resetting a single handle — a proper subset of the
handles — already destroys the pointee (destruction counter 1, pointee no
longer live), contradicting the claim that resetting a proper subset never
destroys it. -/
theorem sharedPtr_wrapped_count_early_destruction :
    (scenarioWorld (2 ^ 32) 0 w0c).mem 0 = 1 ∧
    ((scenarioHandle 0 w0c).Reset (scenarioWorld (2 ^ 32) 0 w0c)).2.destroyCount 0
      = 1 ∧
    ((scenarioHandle 0 w0c).Reset (scenarioWorld (2 ^ 32) 0 w0c)).2.objAlive 0
      = false := by
  have hM1 : 1 < UINT_MOD := by norm_num [UINT_MOD]
  obtain ⟨hmem, halive, hdc⟩ := scenarioWorld_facts (2 ^ 32) 0 w0c
  have hrc : w0c.nextCount = 0 := rfl
  have hcnt : (scenarioWorld (2 ^ 32) 0 w0c).mem 0 = 1 := by
    have h := hmem
    rw [hrc] at h
    rw [h]
    rw [show (2 : Nat) ^ 32 = UINT_MOD from rfl]
    rw [Nat.add_mod_right 1 UINT_MOD]
    exact Nat.mod_eq_of_lt hM1
  have hr : (scenarioHandle 0 w0c).Reset (scenarioWorld (2 ^ 32) 0 w0c) =
      (⟨none, none⟩, destroyAt (scenarioWorld (2 ^ 32) 0 w0c) 0 0) := by
    rw [scenarioHandle_eq, hrc]
    exact reset_last_owner 0 0 _ hcnt
  refine ⟨hcnt, ?_, ?_⟩
  · rw [hr]
    simp only [destroyAt, Function.update_same]
    rw [hdc]
    rfl
  · rw [hr]
    simp only [destroyAt, Function.update_same]

end Sqrat
